import Mathlib

/-!
Verification of the update-resolution service of the steam-integration
addon (src/main.ts): the durable version cache with its 24h TTL, the
per-app-id rate limiter, the per-key coalescing queue with its single
processor, the legacy "1.0" version resolver and the host-facing
check-for-updates handler.

All definitions below are shallow embeddings of the TypeScript source.
JavaScript runtime values that may be `undefined` are modelled as
`Option`; a thrown JavaScript value is modelled by `Except JsThrown`;
timestamps (`Date.now()`) are integers (milliseconds); the mutable
`Map`s and plain objects used as dictionaries are association lists
with JavaScript replace-on-set semantics.
-/

/-- `CACHE_DURATION_MS` from src/main.ts line 18: one day in milliseconds. -/
def CACHE_DURATION_MS : Int := 24 * 60 * 60 * 1000

/-- `UPDATE_COOLDOWN_MS` from src/main.ts line 19: 1.5 seconds. -/
def UPDATE_COOLDOWN_MS : Int := 1500

/-! ### JavaScript dictionary operations

The source uses `Map.get` / `Map.set` / `Map.delete` and plain-object
indexing, assignment and `delete`.  We model a dictionary as an
association list; `jsSet` replaces the binding in place, matching the
JavaScript semantics of assignment to an existing key. -/

def jsGet {α β : Type} [DecidableEq α] : List (α × β) → α → Option β
  | [], _ => none
  | (k, v) :: rest, key => if key = k then some v else jsGet rest key

def jsSet {α β : Type} [DecidableEq α] : List (α × β) → α → β → List (α × β)
  | [], key, val => [(key, val)]
  | (k, v) :: rest, key, val =>
      if key = k then (key, val) :: rest else (k, v) :: jsSet rest key val

def jsDelete {α β : Type} [DecidableEq α] : List (α × β) → α → List (α × β)
  | [], _ => []
  | (k, v) :: rest, key =>
      if key = k then jsDelete rest key else (k, v) :: jsDelete rest key

/-! ### Durable version cache (src/main.ts lines 32-87)

`UpdateCacheEntry.version` is `Option String` because the source can
store the result of `branches['public'].buildid!` where the
non-null assertion is erased at runtime and the field may be absent. -/

structure UpdateCacheEntry where
  version : Option String
  timestamp : Int
deriving DecidableEq, Repr

/-- The cache object keyed by `appID.toString()`. -/
abbrev UpdateCache := List (String × UpdateCacheEntry)

/-- Outcome of reading the persisted cache file: missing file, a file
whose contents make `JSON.parse` or `readFileSync` throw, or a good
parse. -/
inductive StoredCache
  | absent
  | corrupt
  | good (cache : UpdateCache)
deriving DecidableEq, Repr

/-- The persistence environment for the update cache: the state of the
cache file plus whether `writeFileSync` throws. -/
structure Fs where
  stored : StoredCache
  writeFails : Bool
deriving DecidableEq, Repr

/-- `readUpdateCache` (src/main.ts lines 41-51): a missing file yields
`{}`; a read or parse failure is caught, logged, and yields `{}`. -/
def readUpdateCache (fs : Fs) : UpdateCache :=
  match fs.stored with
  | .good cache => cache
  | _ => []

/-- `writeUpdateCache` (src/main.ts lines 53-59): a write failure is
caught and logged, leaving the persisted file unchanged. -/
def writeUpdateCache (fs : Fs) (cache : UpdateCache) : Fs :=
  if fs.writeFails then fs else { fs with stored := .good cache }

/-- `getCachedUpdate` (src/main.ts lines 61-78), with `now` standing
for `Date.now()`.  Returns the entry looked up (when valid) together
with the persistence state after the lazy expiry deletion. -/
def getCachedUpdate (fs : Fs) (appID : Nat) (now : Int) :
    Option UpdateCacheEntry × Fs :=
  let cache := readUpdateCache fs
  match jsGet cache (toString appID) with
  | none => (none, fs)
  | some entry =>
      if now - entry.timestamp ≥ CACHE_DURATION_MS then
        (none, writeUpdateCache fs (jsDelete cache (toString appID)))
      else
        (some entry, fs)

/-- `setCachedUpdate` (src/main.ts lines 80-87), with `now` standing
for `Date.now()`. -/
def setCachedUpdate (fs : Fs) (appID : Nat) (version : Option String)
    (now : Int) : Fs :=
  writeUpdateCache fs
    (jsSet (readUpdateCache fs) (toString appID) ⟨version, now⟩)

/-! ### Steam metadata (src/lib/types.ts, restricted to the fields the
update-resolution service reads)

`SteamAppInfo.depots` is optional at runtime: the game-details handler
at src/main.ts line 698 explicitly tests `depots !== undefined`. -/

structure SteamBranch where
  buildid : Option String
deriving DecidableEq, Repr

structure SteamDepots where
  branches : Option (List (String × SteamBranch))
deriving DecidableEq, Repr

structure SteamAppCommon where
  public_only : Option String
deriving DecidableEq, Repr

structure SteamAppInfo where
  common : SteamAppCommon
  depots : Option SteamDepots
deriving DecidableEq, Repr

/-- The body of a successful steamcmd API response, keyed by app id. -/
structure SteamAppInfoResponse where
  data : List (Nat × SteamAppInfo)
deriving DecidableEq, Repr

/-- A thrown JavaScript value, as discriminated by the handler in
`processUpdateQueue` (src/main.ts line 166): either a string or
anything else (TypeError and friends). -/
inductive JsThrown
  | str (s : String)
  | nonString
deriving DecidableEq, Repr

deriving instance DecidableEq for Except

/-- The mapping `typeof error === 'string' ? error : 'Unknown error'`
applied at src/main.ts line 166. -/
def errorToRejection : JsThrown → String
  | .str s => s
  | .nonString => "Unknown error"

/-- The version-derivation expression of src/main.ts lines 115-117 and
831-833:

`steamAppInfo.data[appID].common.public_only === undefined
   ? steamAppInfo?.data[appID].depots.branches!['public'].buildid!
   : '1.0'`

evaluated with JavaScript semantics.  Reading a property of a missing
record, of a missing `depots`, of a missing `branches` or of a missing
`'public'` branch throws a TypeError; the trailing `buildid!` is a
compile-time-only assertion, so a present branch with an absent
`buildid` does not throw and yields `undefined` (here `none`). -/
def deriveVersion (resp : SteamAppInfoResponse) (appID : Nat) :
    Except JsThrown (Option String) :=
  match jsGet resp.data appID with
  | none => .error .nonString
  | some info =>
      match info.common.public_only with
      | some _ => .ok (some "1.0")
      | none =>
          match info.depots with
          | none => .error .nonString
          | some depots =>
              match depots.branches with
              | none => .error .nonString
              | some branches =>
                  match jsGet branches "public" with
                  | none => .error .nonString
                  | some branch => .ok branch.buildid

/-! ### Rate limiter and cache-miss processing (src/main.ts lines 89-126) -/

/-- A pending update-check request (src/main.ts lines 22-27), without
its callbacks: outcomes are returned by the processing functions.
`currentVersion` is `Option String` because the check-for-updates
handler can overwrite it with the result of `resolve10FileVersion`,
which can be `undefined`. -/
structure UpdateCheckRequest where
  appID : Nat
  currentVersion : Option String
deriving DecidableEq, Repr

/-- What the processor delivers to one request: `request.resolve` or
`request.reject`. -/
inductive Outcome
  | resolved (version : Option String) (available : Bool)
  | rejected (error : String)
deriving DecidableEq, Repr

/-- Mutable service state threaded through the processor:
`lastApiCallTime` (src/main.ts line 89) and the persisted cache. -/
structure ProcState where
  lastApiCallTime : List (Nat × Int)
  fs : Fs
deriving DecidableEq, Repr

/-- The cooldown computation of src/main.ts lines 96-104.  The guard
`if (lastCall)` is JavaScript truthiness, so a recorded time of `0` is
treated like an absent record. -/
def cooldownWait (lastCall : Option Int) (now : Int) : Int :=
  match lastCall with
  | none => 0
  | some t =>
      if t = 0 then 0
      else
        let timeSinceLastCall := now - t
        if timeSinceLastCall < UPDATE_COOLDOWN_MS then
          UPDATE_COOLDOWN_MS - timeSinceLastCall
        else 0

/-- The instant at which `processUpdateCheck` issues its API call when
entered at `now`: after the cooldown sleep of lines 99-103. -/
def updateCheckFetchTime (st : ProcState) (req : UpdateCheckRequest)
    (now : Int) : Int :=
  now + cooldownWait (jsGet st.lastApiCallTime req.appID) now

/-- `processUpdateCheck` (src/main.ts lines 91-126) entered at time
`now`.  `fetch` is the result of `getSteamAppInfo` (`none` when axios
threw) and `fetchDur` its duration.  Returns the delivered outcome (or
the thrown value escaping to the queue processor), the state after the
call, the time of the API call, and the completion time.  The source
records `lastApiCallTime` immediately before the fetch (line 107) and
writes the cache only on the success path (line 120). -/
def processUpdateCheck (st : ProcState) (req : UpdateCheckRequest)
    (now : Int) (fetch : Option SteamAppInfoResponse) (fetchDur : Int) :
    Except JsThrown Outcome × ProcState × Int × Int :=
  let t := updateCheckFetchTime st req now
  let st1 : ProcState :=
    { st with lastApiCallTime := jsSet st.lastApiCallTime req.appID t }
  match fetch with
  | none => (.ok (.rejected "Steam app info not found"), st1, t, t + fetchDur)
  | some resp =>
      match deriveVersion resp req.appID with
      | .error e => (.error e, st1, t, t + fetchDur)
      | .ok version =>
          let st2 : ProcState :=
            { st1 with
              fs := setCachedUpdate st1.fs req.appID version (t + fetchDur) }
          (.ok (.resolved version (decide (version ≠ req.currentVersion))),
           st2, t, t + fetchDur)

/-- One iteration of the draining loop of `processUpdateQueue`
(src/main.ts lines 143-167) applied to the popped request: the cache
check of lines 147-160, else the guarded `processUpdateCheck` call of
lines 162-167.  Returns the outcome delivered to the request, the
`madeApiCall` flag, the state after the iteration and its completion
time. -/
def processQueueItem (st : ProcState) (req : UpdateCheckRequest)
    (now : Int) (fetch : Option SteamAppInfoResponse) (fetchDur : Int) :
    Outcome × Bool × ProcState × Int :=
  match getCachedUpdate st.fs req.appID now with
  | (some entry, fsAfter) =>
      (.resolved entry.version (decide (entry.version ≠ req.currentVersion)),
       false, { st with fs := fsAfter }, now)
  | (none, fsAfter) =>
      match processUpdateCheck { st with fs := fsAfter } req now fetch fetchDur with
      | (.ok outcome, st1, _, endTime) => (outcome, true, st1, endTime)
      | (.error e, st1, _, endTime) =>
          (.rejected (errorToRejection e), true, st1, endTime)

/-- The inter-item wait of src/main.ts lines 169-172: one full cooldown
after an API call when the queue is still non-empty. -/
def interItemWait (madeApiCall : Bool) (queueNonEmpty : Bool) : Int :=
  if madeApiCall && queueNonEmpty then UPDATE_COOLDOWN_MS else 0

/-- The full draining loop of `processUpdateQueue` over a fixed queue,
each request paired with its fetch oracle (response and duration).
Returns the outcomes in service order, the final state and the final
time. -/
def drainQueue (st : ProcState) (now : Int) :
    List (UpdateCheckRequest × Option SteamAppInfoResponse × Int) →
    List (UpdateCheckRequest × Outcome) × ProcState × Int
  | [] => ([], st, now)
  | (req, fetch, fetchDur) :: rest =>
      let step := processQueueItem st req now fetch fetchDur
      let nextStart := step.2.2.2 + interItemWait step.2.1 (!rest.isEmpty)
      let tail := drainQueue step.2.2.1 nextStart rest
      ((req, step.1) :: tail.1, tail.2)

/-! ### Per-key queue registry (src/main.ts lines 128-200)

For one application id we track the `updateQueues` entry, the
`queueProcessors` flag, the number of processor instances currently
between line 134 (`queueProcessors.set(appID, true)`) and line 176
(`queueProcessors.delete(appID)`), and the histories of enqueued and
served requests.  `queueUpdateCheck` (lines 181-200) appends to the
queue and synchronously runs `processUpdateQueue` up to its first
await: if the flag is set the call returns at line 131, otherwise the
flag is set at line 134 and a processor starts.  A processor step pops
the head request (line 144) and eventually delivers its outcome; the
loop exits (line 140) only when the queue is empty, after which the
`finally` block clears the flag and removes the queue. -/

structure KeyState where
  queue : List UpdateCheckRequest
  processing : Bool
  procs : Nat
  served : List UpdateCheckRequest
  enqueued : List UpdateCheckRequest
deriving DecidableEq, Repr

def initKeyState : KeyState :=
  { queue := [], processing := false, procs := 0, served := [], enqueued := [] }

/-- The interleaved events touching one key of the registry. -/
inductive KStep : KeyState → KeyState → Prop
  | enqueue (s : KeyState) (r : UpdateCheckRequest) :
      KStep s
        { queue := s.queue ++ [r]
          processing := true
          procs := if s.processing then s.procs else s.procs + 1
          served := s.served
          enqueued := s.enqueued ++ [r] }
  | serve (s : KeyState) (r : UpdateCheckRequest) (rest : List UpdateCheckRequest)
      (hp : s.processing = true) (hq : s.queue = r :: rest) :
      KStep s { s with queue := rest, served := s.served ++ [r] }
  | finish (s : KeyState) (hp : s.processing = true) (hq : s.queue = []) :
      KStep s { s with processing := false, procs := s.procs - 1 }

/-- States reachable from the empty registry entry. -/
inductive KReach : KeyState → Prop
  | init : KReach initKeyState
  | step {s s' : KeyState} : KReach s → KStep s s' → KReach s'

/-- The inductive invariant: the processor count matches the flag, and
the enqueue history splits into the served history followed by the
pending queue. -/
def keyInvariant (s : KeyState) : Prop :=
  s.procs = (if s.processing then 1 else 0) ∧
  s.enqueued = s.served ++ s.queue

/-! ### Legacy "1.0" version resolution (src/main.ts lines 811-837)

`resolved10FileVersions` is a plain object whose values come from the
version-derivation expression, hence possibly `undefined`; the guard
`if (resolved10FileVersions[appID])` is JavaScript truthiness, so a
stored `undefined` or empty string behaves like a miss.  The
`fs.writeFileSync` at line 835 is NOT wrapped in try/catch: when it
throws, the thrown value escapes `resolve10FileVersion`, but the
in-memory map was already updated at line 834. -/

structure LegacyState where
  resolved : List (Nat × Option String)
  persistFails : Bool
deriving DecidableEq, Repr

/-- The truthy prior resolution for an app id, if any. -/
def legacyHit (st : LegacyState) (appID : Nat) : Option String :=
  match jsGet st.resolved appID with
  | some (some v) => if v = "" then none else some v
  | _ => none

/-- `resolve10FileVersion` (src/main.ts lines 820-837).  Returns the
result (the resolved version, or the thrown value when derivation or
the unguarded persist throws) together with the in-memory map state
after the call. -/
def resolve10FileVersion (st : LegacyState)
    (fetch : Option SteamAppInfoResponse) (appID : Nat) :
    Except JsThrown (Option String) × LegacyState :=
  match legacyHit st appID with
  | some v => (.ok (some v), st)
  | none =>
      match fetch with
      | none => (.ok (some "1.0"), st)
      | some resp =>
          match deriveVersion resp appID with
          | .error e => (.error e, st)
          | .ok version =>
              let st1 : LegacyState :=
                { st with resolved := jsSet st.resolved appID version }
              if st.persistFails then (.error .nonString, st1)
              else (.ok version, st1)

/-! ### The check-for-updates handler (src/main.ts lines 785-805) -/

/-- The externally visible actions of one handler invocation, in
program order. -/
inductive HandlerEvent
  | legacyResolve (appID : Nat)
  | stagger (ms : Int)
  | enqueue (appID : Nat) (currentVersion : Option String)
deriving DecidableEq, Repr

/-- One invocation of the check-for-updates handler (src/main.ts lines
785-805): increment the global `req` counter at event arrival (line
787), then — inside the deferred callback — substitute a placeholder
current version through `resolve10FileVersion` (line 794), sleep
`UPDATE_COOLDOWN_MS * req` (line 798), then enqueue via
`queueUpdateCheck` (line 802).  The multiplier of the sleep is the
global counter READ AT LINE 798, after the deferral and after the
possibly-suspending legacy-resolution await: overlapping requests may
have incremented it further by then, so it is passed here as the
separate argument `reqAtSleep`; because the counter is only ever
incremented and this request's own increment has already happened,
every execution satisfies `req + 1 ≤ reqAtSleep`, and distinct
overlapping requests can read the SAME `reqAtSleep`.  Returns the
counter after this increment, either the thrown value that rejects the
deferred event or the effective current version with the stagger delay
and the action trace, and the legacy map state after the
invocation. -/
def checkForUpdatesHandler (req reqAtSleep : Nat) (legacy : LegacyState)
    (appID : Nat) (currentVersion : String)
    (fetch : Option SteamAppInfoResponse) :
    Nat × Except JsThrown (Option String × Int × List HandlerEvent) × LegacyState :=
  let req1 := req + 1
  let resolved :
      Except JsThrown (Option String × List HandlerEvent) × LegacyState :=
    if currentVersion = "1.0" ∨ currentVersion = "1.0.0" then
      match resolve10FileVersion legacy fetch appID with
      | (.error e, legacy1) => (.error e, legacy1)
      | (.ok v, legacy1) => (.ok (v, [HandlerEvent.legacyResolve appID]), legacy1)
    else (.ok (some currentVersion, []), legacy)
  match resolved with
  | (.error e, legacy1) => (req1, .error e, legacy1)
  | (.ok (cv, trace), legacy1) =>
      let delay := UPDATE_COOLDOWN_MS * (reqAtSleep : Int)
      (req1,
       .ok (cv, delay,
         trace ++ [HandlerEvent.stagger delay, HandlerEvent.enqueue appID cv]),
       legacy1)

/-! ### Sample values used by witnesses and counterexamples -/

/-- A metadata record whose `public_only` marker is absent and whose
public branch carries build id "57". -/
def infoBuild57 : SteamAppInfo :=
  { common := { public_only := none }
    depots := some { branches := some [("public", { buildid := some "57" })] } }

def respBuild57 : SteamAppInfoResponse := { data := [(42, infoBuild57)] }

/-- A metadata record whose `public_only` marker is present with the
value "0" (explicitly not public-only) and which still has a public
branch with build id "57". -/
def infoPublicOnlyZero : SteamAppInfo :=
  { common := { public_only := some "0" }
    depots := some { branches := some [("public", { buildid := some "57" })] } }

def respPublicOnlyZero : SteamAppInfoResponse := { data := [(42, infoPublicOnlyZero)] }

/-- A metadata record with a public branch whose `buildid` field is
absent. -/
def infoNoBuildid : SteamAppInfo :=
  { common := { public_only := none }
    depots := some { branches := some [("public", { buildid := none })] } }

def respNoBuildid : SteamAppInfoResponse := { data := [(7, infoNoBuildid)] }

/-- A metadata record (no public-only marker) whose depots carry no
branches table at all. -/
def infoNoBranches : SteamAppInfo :=
  { common := { public_only := none }
    depots := some { branches := none } }

def respNoBranches : SteamAppInfoResponse := { data := [(7, infoNoBranches)] }

/-- A metadata record (no public-only marker) whose branches table has
no "public" branch. -/
def infoNoPublicBranch : SteamAppInfo :=
  { common := { public_only := none }
    depots := some { branches := some [] } }

def respNoPublicBranch : SteamAppInfoResponse := { data := [(7, infoNoPublicBranch)] }

def fsEmpty : Fs := { stored := .absent, writeFails := false }

def procStateEmpty : ProcState := { lastApiCallTime := [], fs := fsEmpty }

def legacyEmpty : LegacyState := { resolved := [], persistFails := false }

def legacyPersistBroken : LegacyState := { resolved := [], persistFails := true }

def reqSample : UpdateCheckRequest := { appID := 42, currentVersion := some "1.0.0" }

/-! ### Modelled from the spec (for refinement comparison only)

These two observers follow the SPEC wording of the version-derivation
rule, not the source: "a fetched application record exposes either a
build identifier (preferred) or, when the record indicates a
public-only build with no distinct build identifier, the literal
fallback string 1.0". -/

/-- Modelled from the spec: the record "indicates a public-only
build", i.e. its public-only marker is set (the source elsewhere, at
src/main.ts line 685, reads `public_only === '1'` as "yes"). -/
def specIndicatesPublicOnly (info : SteamAppInfo) : Prop :=
  info.common.public_only = some "1"

instance (info : SteamAppInfo) : Decidable (specIndicatesPublicOnly info) := by
  unfold specIndicatesPublicOnly; infer_instance

/-- Modelled from the spec: the "distinct build identifier" the record
exposes, if any. -/
def specDistinctBuildid (info : SteamAppInfo) : Option String :=
  info.depots.bind fun d =>
    d.branches.bind fun bs =>
      (jsGet bs "public").bind fun b => b.buildid

/-! ### Helper lemmas -/

theorem jsGet_jsSet_self {α β : Type} [DecidableEq α]
    (m : List (α × β)) (k : α) (v : β) : jsGet (jsSet m k v) k = some v := by
  induction m with
  | nil => simp [jsSet, jsGet]
  | cons hd tl ih =>
    obtain ⟨k', v'⟩ := hd
    by_cases h : k = k'
    · simp [jsSet, jsGet, h]
    · simp [jsSet, jsGet, h, ih]

theorem jsGet_jsDelete_self {α β : Type} [DecidableEq α]
    (m : List (α × β)) (k : α) : jsGet (jsDelete m k) k = none := by
  induction m with
  | nil => simp [jsDelete, jsGet]
  | cons hd tl ih =>
    obtain ⟨k', v'⟩ := hd
    by_cases h : k = k'
    · subst h; simp [jsDelete, ih]
    · simp [jsDelete, jsGet, h, ih]

theorem drainQueue_length (st : ProcState) (now : Int)
    (items : List (UpdateCheckRequest × Option SteamAppInfoResponse × Int)) :
    (drainQueue st now items).1.length = items.length := by
  induction items generalizing st now with
  | nil => simp [drainQueue]
  | cons hd tl ih =>
    obtain ⟨req, fetch, fetchDur⟩ := hd
    simp [drainQueue, ih]

theorem keyInvariant_step {s s' : KeyState} (hinv : keyInvariant s)
    (hstep : KStep s s') : keyInvariant s' := by
  obtain ⟨hprocs, hsplit⟩ := hinv
  cases hstep with
  | enqueue r =>
    refine ⟨?_, ?_⟩
    · cases hflag : s.processing with
      | false => simp only [hflag] at hprocs ⊢; simp [hprocs]
      | true => simp only [hflag] at hprocs ⊢; simp [hprocs]
    · simp only [hsplit, List.append_assoc]
  | serve r rest hp hq =>
    refine ⟨by simpa using hprocs, ?_⟩
    simp only [hsplit, hq, List.append_assoc, List.singleton_append]
  | finish hp hq =>
    refine ⟨?_, by simpa [hq] using hsplit⟩
    simp only [hp, if_true] at hprocs
    simp [hprocs]

theorem keyInvariant_of_reach {s : KeyState} (h : KReach s) : keyInvariant s := by
  induction h with
  | init => exact ⟨rfl, rfl⟩
  | step _ hstep ih => exact keyInvariant_step ih hstep


/-! ### Claim C2: cache TTL semantics -/

/-- Claim C2: for every application id, the cache lookup returns the
stored entry exactly when its age `now - timestamp` is strictly below
24 hours; an entry at least 24 hours old is removed from the persisted
cache file (when the write succeeds) before the lookup reports a miss,
and a miss makes the queue processor perform a fresh metadata fetch
(`madeApiCall = true`). -/
theorem cache_ttl_semantics (fs : Fs) (appID : Nat) (now : Int) :
    (∀ e, jsGet (readUpdateCache fs) (toString appID) = some e →
      (now - e.timestamp < CACHE_DURATION_MS →
        getCachedUpdate fs appID now = (some e, fs)) ∧
      (now - e.timestamp ≥ CACHE_DURATION_MS →
        (getCachedUpdate fs appID now).1 = none ∧
        (getCachedUpdate fs appID now).2 =
          writeUpdateCache fs (jsDelete (readUpdateCache fs) (toString appID)) ∧
        (fs.writeFails = false →
          jsGet (readUpdateCache (getCachedUpdate fs appID now).2)
            (toString appID) = none))) ∧
    (∀ (st : ProcState) (req : UpdateCheckRequest) fetch fetchDur,
      (getCachedUpdate st.fs req.appID now).1 = none →
      (processQueueItem st req now fetch fetchDur).2.1 = true) := by
  constructor
  · intro e he
    constructor
    · intro hfresh
      have hnot : ¬ now - e.timestamp ≥ CACHE_DURATION_MS := by omega
      simp [getCachedUpdate, he, hnot]
    · intro hexp
      refine ⟨?_, ?_, ?_⟩
      · simp [getCachedUpdate, he, hexp]
      · simp [getCachedUpdate, he, hexp]
      · intro hwf
        have h2 : (getCachedUpdate fs appID now).2 =
            writeUpdateCache fs (jsDelete (readUpdateCache fs) (toString appID)) := by
          simp [getCachedUpdate, he, hexp]
        rw [h2]
        simp [writeUpdateCache, hwf, readUpdateCache, jsGet_jsDelete_self]
  · intro st req fetch fetchDur hmiss
    rcases hg : getCachedUpdate st.fs req.appID now with ⟨o, fsAfter⟩
    rw [hg] at hmiss
    simp only at hmiss
    subst hmiss
    rcases hp : processUpdateCheck { st with fs := fsAfter } req now fetch fetchDur
      with ⟨res, st1, t, endT⟩
    cases res <;> simp [processQueueItem, hg, hp]

theorem cache_ttl_semantics_witness :
    getCachedUpdate
        { stored := .good [("42", ⟨some "57", 1000⟩)], writeFails := false } 42 2000 =
      (some ⟨some "57", 1000⟩,
       { stored := .good [("42", ⟨some "57", 1000⟩)], writeFails := false }) ∧
    (processQueueItem procStateEmpty reqSample 2000 none 0).2.1 = true :=
  ⟨((cache_ttl_semantics
      { stored := .good [("42", ⟨some "57", 1000⟩)], writeFails := false } 42 2000).1
      ⟨some "57", 1000⟩ (by decide)).1 (by decide),
   (cache_ttl_semantics fsEmpty 42 2000).2 procStateEmpty reqSample none 0 (by decide)⟩

/-! ### Claim C3: rate limiting of cache-miss fetches -/

/-- Claim C3: before the cache-miss fetch the service computes the
elapsed time since the recorded last call for the id (an absent record
means no wait); when the elapsed time is below the 1.5s cooldown it
suspends for the remainder, so the fetch instant is at least
`UPDATE_COOLDOWN_MS` after the previous recorded call; and the last
call time of the id is set to the fetch instant immediately before the
fetch is issued.  Consecutive cache-miss fetches for the same id are
therefore separated by at least 1.5 seconds (the serial per-key
processor guarantees `p ≤ now`; JavaScript clock values are
positive). -/
theorem rate_limiter_separation (st : ProcState) (req : UpdateCheckRequest)
    (now : Int) (fetch : Option SteamAppInfoResponse) (fetchDur : Int) :
    (jsGet st.lastApiCallTime req.appID = none →
      updateCheckFetchTime st req now = now) ∧
    (∀ p, jsGet st.lastApiCallTime req.appID = some p → 1 ≤ p → p ≤ now →
      p + UPDATE_COOLDOWN_MS ≤ updateCheckFetchTime st req now) ∧
    (processUpdateCheck st req now fetch fetchDur).2.2.1 =
      updateCheckFetchTime st req now ∧
    jsGet (processUpdateCheck st req now fetch fetchDur).2.1.lastApiCallTime
        req.appID =
      some (updateCheckFetchTime st req now) := by
  refine ⟨?_, ?_, ?_⟩
  · intro h
    simp [updateCheckFetchTime, cooldownWait, h]
  · intro p hp h1 hnow
    have hne : p ≠ 0 := by omega
    simp only [updateCheckFetchTime, cooldownWait, hp, if_neg hne,
      UPDATE_COOLDOWN_MS] at *
    split <;> omega
  · cases fetch with
    | none => simp [processUpdateCheck, jsGet_jsSet_self]
    | some resp =>
      cases hderive : deriveVersion resp req.appID with
      | error e => simp [processUpdateCheck, hderive, jsGet_jsSet_self]
      | ok version => simp [processUpdateCheck, hderive, jsGet_jsSet_self]

theorem rate_limiter_separation_witness :
    updateCheckFetchTime procStateEmpty reqSample 5000 = 5000 ∧
    (1000 : Int) + UPDATE_COOLDOWN_MS ≤
      updateCheckFetchTime { lastApiCallTime := [(42, 1000)], fs := fsEmpty }
        reqSample 2000 :=
  ⟨(rate_limiter_separation procStateEmpty reqSample 5000 none 0).1 (by decide),
   (rate_limiter_separation { lastApiCallTime := [(42, 1000)], fs := fsEmpty }
      reqSample 2000 none 0).2.1 1000 (by decide) (by decide) (by decide)⟩

/-! ### Claim C4: cache-hit fast path -/

/-- Claim C4: a request served from a valid cache entry resolves
immediately with the cached version and
`available = (version != currentVersion)`, makes no API call
(`madeApiCall = false`, and its behaviour is independent of the
metadata collaborator), leaves the rate-limiter state untouched,
finishes at the instant it started, and incurs no inter-item cooldown
before the next queued request. -/
theorem cache_hit_fast_path (st : ProcState) (req : UpdateCheckRequest)
    (now : Int) (fetch fetch2 : Option SteamAppInfoResponse)
    (fetchDur fetchDur2 : Int) (entry : UpdateCacheEntry) (fsAfter : Fs)
    (h : getCachedUpdate st.fs req.appID now = (some entry, fsAfter)) :
    processQueueItem st req now fetch fetchDur =
      (Outcome.resolved entry.version (decide (entry.version ≠ req.currentVersion)),
       false, { st with fs := fsAfter }, now) ∧
    processQueueItem st req now fetch fetchDur =
      processQueueItem st req now fetch2 fetchDur2 ∧
    (processQueueItem st req now fetch fetchDur).2.2.1.lastApiCallTime =
      st.lastApiCallTime ∧
    interItemWait false true = 0 ∧ interItemWait false false = 0 := by
  refine ⟨?_, ?_, ?_, by simp [interItemWait], by simp [interItemWait]⟩
  · simp [processQueueItem, h]
  · simp [processQueueItem, h]
  · simp [processQueueItem, h]

theorem cache_hit_fast_path_witness :
    processQueueItem
        { lastApiCallTime := [],
          fs := { stored := .good [("42", ⟨some "57", 1000⟩)], writeFails := false } }
        reqSample 2000 none 0 =
      (Outcome.resolved (some "57") true, false,
       { lastApiCallTime := [],
         fs := { stored := .good [("42", ⟨some "57", 1000⟩)], writeFails := false } },
       2000) := by
  have h := (cache_hit_fast_path
    { lastApiCallTime := [],
      fs := { stored := .good [("42", ⟨some "57", 1000⟩)], writeFails := false } }
    reqSample 2000 none none 0 0 ⟨some "57", 1000⟩
    { stored := .good [("42", ⟨some "57", 1000⟩)], writeFails := false }
    (by decide)).1
  simpa using h

/-! ### Claim C6: fetch failure rejects locally, caches nothing -/

/-- Claim C6: when `getSteamAppInfo` fails (axios threw or the app is
unknown upstream, so the call returned `undefined`), the pending
request is rejected with the "Steam app info not found" error, the
persisted version cache is untouched, and the processor keeps draining
the queue: every later queued request still receives an outcome. -/
theorem fetch_failure_rejection (st : ProcState) (req : UpdateCheckRequest)
    (now fetchDur : Int)
    (hmiss : jsGet (readUpdateCache st.fs) (toString req.appID) = none) :
    (processQueueItem st req now none fetchDur).1 =
      .rejected "Steam app info not found" ∧
    (processQueueItem st req now none fetchDur).2.2.1.fs = st.fs ∧
    ∀ rest t0,
      (drainQueue st t0 ((req, none, fetchDur) :: rest)).1.length =
        rest.length + 1 := by
  have hg : getCachedUpdate st.fs req.appID now = (none, st.fs) := by
    simp [getCachedUpdate, hmiss]
  refine ⟨?_, ?_, ?_⟩
  · simp [processQueueItem, hg, processUpdateCheck]
  · simp [processQueueItem, hg, processUpdateCheck]
  · intro rest t0
    simp [drainQueue_length]

theorem fetch_failure_rejection_witness :
    (processQueueItem procStateEmpty reqSample 2000 none 0).1 =
      .rejected "Steam app info not found" ∧
    (processQueueItem procStateEmpty reqSample 2000 none 0).2.2.1.fs =
      procStateEmpty.fs ∧
    (drainQueue procStateEmpty 2000
        [(reqSample, none, 0), (reqSample, none, 0)]).1.length = 2 := by
  have h := fetch_failure_rejection procStateEmpty reqSample 2000 0 (by decide)
  exact ⟨h.1, h.2.1, h.2.2 [(reqSample, none, 0)] 2000⟩

/-! ### Claim C1: per-key mutual exclusion and FIFO order -/

/-- Claim C1: in every reachable registry state for an application id,
at most one queue processor is active (the `queueProcessors` flag is
set exactly while a processor runs, because it is set before the
draining loop starts and cleared only when the loop exits with an
empty queue), and the requests already resolved or rejected, followed
by the still-pending queue, list all enqueued requests in submission
order — so same-id requests are served strictly FIFO.  States of
different ids evolve in independent copies of this system, so no
cross-id ordering is implied. -/
theorem queue_exclusion_and_fifo (s : KeyState) (h : KReach s) :
    s.procs ≤ 1 ∧
    (s.processing = true → s.procs = 1) ∧
    (s.processing = false → s.procs = 0) ∧
    s.enqueued = s.served ++ s.queue := by
  obtain ⟨hprocs, hsplit⟩ := keyInvariant_of_reach h
  refine ⟨?_, ?_, ?_, hsplit⟩
  · cases hb : s.processing <;> simp [hb] at hprocs <;> omega
  · intro hb; simp [hb] at hprocs; omega
  · intro hb; simp [hb] at hprocs; omega

theorem queue_exclusion_and_fifo_witness :
    ({ queue := [reqSample], processing := true, procs := 1, served := [],
       enqueued := [reqSample] } : KeyState).procs ≤ 1 ∧
    (({ queue := [reqSample], processing := true, procs := 1, served := [],
        enqueued := [reqSample] } : KeyState).processing = true →
      ({ queue := [reqSample], processing := true, procs := 1, served := [],
         enqueued := [reqSample] } : KeyState).procs = 1) ∧
    (({ queue := [reqSample], processing := true, procs := 1, served := [],
        enqueued := [reqSample] } : KeyState).processing = false →
      ({ queue := [reqSample], processing := true, procs := 1, served := [],
         enqueued := [reqSample] } : KeyState).procs = 0) ∧
    ({ queue := [reqSample], processing := true, procs := 1, served := [],
       enqueued := [reqSample] } : KeyState).enqueued =
      ({ queue := [reqSample], processing := true, procs := 1, served := [],
         enqueued := [reqSample] } : KeyState).served ++
        ({ queue := [reqSample], processing := true, procs := 1, served := [],
           enqueued := [reqSample] } : KeyState).queue :=
  queue_exclusion_and_fifo _
    (KReach.step KReach.init (KStep.enqueue initKeyState reqSample))

/-! ### Claim C9: the global request counter and its stagger delay -/

/-- Counterexample to claim C9 as stated: the multiplier of the
stagger sleep is the global counter read at src/main.ts line 798,
after the deferral and after the awaited legacy resolution at line
794, so two overlapping requests can read the same counter value.
Here request A (counter 0 becomes 1, placeholder "1.0.0" suspends on
its legacy fetch) only reaches the sleep after request B (counter 1
becomes 2) has arrived: both read the counter at 2 and both sleep
3000 ms — equal delays for successive requests, so the stagger delay
is not strictly increasing over successive requests. -/
theorem stagger_not_strict_counterexample :
    (checkForUpdatesHandler 0 2 legacyEmpty 5 "1.0.0" none).2.1 =
      .ok (some "1.0", 3000,
        [HandlerEvent.legacyResolve 5, HandlerEvent.stagger 3000,
         HandlerEvent.enqueue 5 (some "1.0")]) ∧
    (checkForUpdatesHandler 1 2 legacyEmpty 7 "2.0" none).2.1 =
      .ok (some "2.0", 3000,
        [HandlerEvent.stagger 3000, HandlerEvent.enqueue 7 (some "2.0")]) ∧
    (0 : Nat) + 1 < 1 + 1 := by
  refine ⟨by decide, by decide, by decide⟩

/-- Claim C9 (amended): the check-for-updates handler increments its
single global request counter on every incoming request and never
resets or decrements it; each request then sleeps `UPDATE_COOLDOWN_MS`
times the counter value it reads at sleep time — which is at least
this request's own increment, since the counter only ever grows —
before its enqueue (in the action trace the stagger strictly precedes
the enqueue, and the cache is only consulted by the queue processor
after the enqueue); the delay is strictly increasing in the counter
value read and grows without bound over the life of the process, the
n-th request waiting at least n cooldowns; but overlapping requests
can read the same counter value and receive equal delays, so the
delay is not strictly increasing over successive requests. -/
theorem request_counter_stagger :
    (∀ req reqAtSleep legacy appID cv fetch,
      (checkForUpdatesHandler req reqAtSleep legacy appID cv fetch).1 = req + 1) ∧
    (∀ req reqAtSleep legacy appID cv fetch v d tr,
      (checkForUpdatesHandler req reqAtSleep legacy appID cv fetch).2.1 =
        .ok (v, d, tr) →
      d = UPDATE_COOLDOWN_MS * (reqAtSleep : Int) ∧
      ∃ pre, tr = pre ++ [HandlerEvent.stagger d, HandlerEvent.enqueue appID v]) ∧
    (∀ req reqAtSleep legacy appID cv fetch v d tr,
      req + 1 ≤ reqAtSleep →
      (checkForUpdatesHandler req reqAtSleep legacy appID cv fetch).2.1 =
        .ok (v, d, tr) →
      UPDATE_COOLDOWN_MS * ((req + 1 : Nat) : Int) ≤ d) ∧
    StrictMono (fun n : Nat => UPDATE_COOLDOWN_MS * (n : Int)) ∧
    (∀ B : Int, ∃ n : Nat, B < UPDATE_COOLDOWN_MS * (n : Int)) := by
  have hdelay : ∀ req reqAtSleep legacy appID cv fetch v d tr,
      (checkForUpdatesHandler req reqAtSleep legacy appID cv fetch).2.1 =
        .ok (v, d, tr) →
      d = UPDATE_COOLDOWN_MS * (reqAtSleep : Int) ∧
      ∃ pre, tr = pre ++ [HandlerEvent.stagger d, HandlerEvent.enqueue appID v] := by
    intro req reqAtSleep legacy appID cv fetch v d tr h
    by_cases hcv : cv = "1.0" ∨ cv = "1.0.0"
    · rcases hr : resolve10FileVersion legacy fetch appID with ⟨res, l1⟩
      cases res with
      | error e => simp [checkForUpdatesHandler, hcv, hr] at h
      | ok v0 =>
        simp only [checkForUpdatesHandler, hcv, if_true, hr] at h
        rw [Except.ok.injEq] at h
        obtain ⟨hv, hd, htr⟩ := h
        exact ⟨rfl, [HandlerEvent.legacyResolve appID], rfl⟩
    · simp only [checkForUpdatesHandler, hcv, if_false] at h
      rw [Except.ok.injEq] at h
      obtain ⟨hv, hd, htr⟩ := h
      exact ⟨rfl, [], rfl⟩
  refine ⟨?_, hdelay, ?_, ?_, ?_⟩
  · intro req reqAtSleep legacy appID cv fetch
    by_cases hcv : cv = "1.0" ∨ cv = "1.0.0"
    · rcases hr : resolve10FileVersion legacy fetch appID with ⟨res, l1⟩
      cases res <;> simp [checkForUpdatesHandler, hcv, hr]
    · simp [checkForUpdatesHandler, hcv]
  · intro req reqAtSleep legacy appID cv fetch v d tr hle h
    obtain ⟨hd, -⟩ := hdelay req reqAtSleep legacy appID cv fetch v d tr h
    subst hd
    have hcast : ((req + 1 : Nat) : Int) ≤ (reqAtSleep : Int) := by
      exact_mod_cast hle
    simp only [UPDATE_COOLDOWN_MS]
    omega
  · intro a b hab
    have h1 : (a : Int) < (b : Int) := by exact_mod_cast hab
    have h2 : (0 : Int) < 1500 := by norm_num
    simpa [UPDATE_COOLDOWN_MS] using mul_lt_mul_of_pos_left h1 h2
  · intro B
    refine ⟨B.toNat + 1, ?_⟩
    have h := Int.self_le_toNat B
    simp only [UPDATE_COOLDOWN_MS]
    push_cast
    omega

theorem request_counter_stagger_witness :
    (checkForUpdatesHandler 3 4 legacyEmpty 42 "2.0" none).1 = 3 + 1 ∧
    ((6000 : Int) = UPDATE_COOLDOWN_MS * ((4 : Nat) : Int) ∧
     ∃ pre,
       ([HandlerEvent.stagger 6000, HandlerEvent.enqueue 42 (some "2.0")] :
           List HandlerEvent) =
         pre ++ [HandlerEvent.stagger 6000, HandlerEvent.enqueue 42 (some "2.0")]) ∧
    UPDATE_COOLDOWN_MS * ((3 + 1 : Nat) : Int) ≤ 6000 :=
  ⟨request_counter_stagger.1 3 4 legacyEmpty 42 "2.0" none,
   request_counter_stagger.2.1 3 4 legacyEmpty 42 "2.0" none (some "2.0") 6000
     [HandlerEvent.stagger 6000, HandlerEvent.enqueue 42 (some "2.0")] (by decide),
   request_counter_stagger.2.2.1 3 4 legacyEmpty 42 "2.0" none (some "2.0") 6000
     [HandlerEvent.stagger 6000, HandlerEvent.enqueue 42 (some "2.0")]
     (by decide) (by decide)⟩

/-! ### Claim C5: version derivation and caching on successful fetch -/

/-- Counterexample to claim C5 as stated: the record for app 42
carries the marker `public_only = "0"`, so it does NOT indicate a
public-only build, and it DOES expose the distinct build identifier
"57"; the claim therefore requires the derived version to be "57", yet
the source derives the fallback "1.0" because it tests only whether
the `public_only` field is present. -/
theorem version_fallback_counterexample :
    deriveVersion respPublicOnlyZero 42 = .ok (some "1.0") ∧
    ¬ specIndicatesPublicOnly infoPublicOnlyZero ∧
    specDistinctBuildid infoPublicOnlyZero = some "57" := by
  refine ⟨by decide, by decide, by decide⟩

/-- Claim C5 (amended): on a successful fetch the derived version is
the fallback "1.0" exactly when the record's `public_only` field is
present (whatever its value), and otherwise the public branch's
`buildid` (possibly absent); on the update-check path the derived
version is written to the durable cache (timestamped with the fetch
completion instant) and the request resolves with
`available = (version != currentVersion)`; the legacy-resolution path
derives and persists the same version. -/
theorem version_derivation_and_caching :
    (∀ resp appID info, jsGet resp.data appID = some info →
      info.common.public_only ≠ none →
      deriveVersion resp appID = .ok (some "1.0")) ∧
    (∀ resp appID info branches branch, jsGet resp.data appID = some info →
      info.common.public_only = none →
      info.depots = some { branches := some branches } →
      jsGet branches "public" = some branch →
      deriveVersion resp appID = .ok branch.buildid) ∧
    (∀ (st : ProcState) req now fetchDur resp version,
      deriveVersion resp req.appID = .ok version →
      (processUpdateCheck st req now (some resp) fetchDur).1 =
        .ok (.resolved version (decide (version ≠ req.currentVersion))) ∧
      (st.fs.writeFails = false →
        jsGet
            (readUpdateCache (processUpdateCheck st req now (some resp) fetchDur).2.1.fs)
            (toString req.appID) =
          some ⟨version, updateCheckFetchTime st req now + fetchDur⟩)) ∧
    (∀ ls resp appID version, legacyHit ls appID = none →
      ls.persistFails = false →
      deriveVersion resp appID = .ok version →
      resolve10FileVersion ls (some resp) appID =
        (.ok version, { ls with resolved := jsSet ls.resolved appID version })) := by
  refine ⟨?_, ?_, ?_, ?_⟩
  · intro resp appID info h hpo
    cases hp : info.common.public_only with
    | none => exact absurd hp hpo
    | some x => simp [deriveVersion, h, hp]
  · intro resp appID info branches branch h hpo hdep hbr
    simp [deriveVersion, h, hpo, hdep, hbr]
  · intro st req now fetchDur resp version hderive
    constructor
    · simp [processUpdateCheck, hderive]
    · intro hwf
      simp [processUpdateCheck, hderive, setCachedUpdate, writeUpdateCache, hwf,
        readUpdateCache, jsGet_jsSet_self]
  · intro ls resp appID version hhit hpf hderive
    simp [resolve10FileVersion, hhit, hderive, hpf]

theorem version_derivation_and_caching_witness :
    deriveVersion respBuild57 42 = .ok (some "57") ∧
    (processUpdateCheck procStateEmpty reqSample 1000 (some respBuild57) 0).1 =
      .ok (.resolved (some "57") true) ∧
    jsGet
        (readUpdateCache
          (processUpdateCheck procStateEmpty reqSample 1000 (some respBuild57) 0).2.1.fs)
        (toString 42) =
      some ⟨some "57", 1000⟩ ∧
    resolve10FileVersion legacyEmpty (some respBuild57) 42 =
      (.ok (some "57"), { resolved := [(42, some "57")], persistFails := false }) := by
  have hd : deriveVersion respBuild57 42 = .ok (some "57") :=
    version_derivation_and_caching.2.1 respBuild57 42 infoBuild57
      [("public", { buildid := some "57" })] { buildid := some "57" }
      (by decide) rfl rfl (by decide)
  have h3 := version_derivation_and_caching.2.2.1 procStateEmpty reqSample 1000 0
    respBuild57 (some "57") hd
  have h4 := version_derivation_and_caching.2.2.2 legacyEmpty respBuild57 42
    (some "57") (by decide) rfl hd
  refine ⟨hd, h3.1, ?_, h4⟩
  have h5 := h3.2 rfl
  simpa using h5

/-! ### Claim C7: the legacy-version resolver -/

/-- Counterexample to claim C7 as stated: with no prior resolution and
a failing metadata fetch the resolver does not return the caller's
placeholder unchanged — a caller whose placeholder was "1.0.0" gets
back the literal "1.0" instead. -/
theorem legacy_placeholder_counterexample :
    resolve10FileVersion legacyEmpty none 5 = (.ok (some "1.0"), legacyEmpty) ∧
    (checkForUpdatesHandler 0 1 legacyEmpty 5 "1.0.0" none).2.1 =
      .ok (some "1.0", 1500,
        [HandlerEvent.legacyResolve 5, HandlerEvent.stagger 1500,
         HandlerEvent.enqueue 5 (some "1.0")]) ∧
    (some "1.0" : Option String) ≠ some "1.0.0" := by
  refine ⟨by decide, by decide, by decide⟩

/-- Claim C7 (amended): the host-facing handler routes a placeholder
currentVersion of "1.0" or "1.0.0" through the legacy resolver; a
prior (truthy) resolution is returned unchanged with no metadata fetch
and no state change; with no prior resolution and a failed fetch the
resolver returns the literal "1.0" (not necessarily the caller's
original placeholder) and persists no mapping, so later calls retry;
on a successful fetch it persists the derived version and returns
it. -/
theorem legacy_resolver_behavior :
    (∀ ls appID v fetch1 fetch2, legacyHit ls appID = some v →
      resolve10FileVersion ls fetch1 appID = (.ok (some v), ls) ∧
      resolve10FileVersion ls fetch1 appID = resolve10FileVersion ls fetch2 appID) ∧
    (∀ ls appID, legacyHit ls appID = none →
      resolve10FileVersion ls none appID = (.ok (some "1.0"), ls)) ∧
    (∀ ls resp appID version, legacyHit ls appID = none →
      ls.persistFails = false →
      deriveVersion resp appID = .ok version →
      resolve10FileVersion ls (some resp) appID =
        (.ok version, { ls with resolved := jsSet ls.resolved appID version })) ∧
    (∀ req reqAtSleep legacy appID cv fetch v l1, (cv = "1.0" ∨ cv = "1.0.0") →
      resolve10FileVersion legacy fetch appID = (.ok v, l1) →
      checkForUpdatesHandler req reqAtSleep legacy appID cv fetch =
        (req + 1,
         .ok (v, UPDATE_COOLDOWN_MS * ((reqAtSleep : Nat) : Int),
           [HandlerEvent.legacyResolve appID,
            HandlerEvent.stagger (UPDATE_COOLDOWN_MS * ((reqAtSleep : Nat) : Int)),
            HandlerEvent.enqueue appID v]),
         l1)) := by
  refine ⟨?_, ?_, ?_, ?_⟩
  · intro ls appID v fetch1 fetch2 hhit
    constructor <;> simp [resolve10FileVersion, hhit]
  · intro ls appID hhit
    simp [resolve10FileVersion, hhit]
  · intro ls resp appID version hhit hpf hderive
    simp [resolve10FileVersion, hhit, hderive, hpf]
  · intro req reqAtSleep legacy appID cv fetch v l1 hcv hr
    simp [checkForUpdatesHandler, hcv, hr]

theorem legacy_resolver_behavior_witness :
    resolve10FileVersion { resolved := [(9, some "88")], persistFails := false }
        none 9 =
      (.ok (some "88"), { resolved := [(9, some "88")], persistFails := false }) ∧
    resolve10FileVersion legacyEmpty none 7 = (.ok (some "1.0"), legacyEmpty) ∧
    resolve10FileVersion legacyEmpty (some respBuild57) 42 =
      (.ok (some "57"), { resolved := [(42, some "57")], persistFails := false }) ∧
    checkForUpdatesHandler 0 1 legacyEmpty 7 "1.0" none =
      (0 + 1,
       .ok (some "1.0", UPDATE_COOLDOWN_MS * ((1 : Nat) : Int),
         [HandlerEvent.legacyResolve 7,
          HandlerEvent.stagger (UPDATE_COOLDOWN_MS * ((1 : Nat) : Int)),
          HandlerEvent.enqueue 7 (some "1.0")]),
       legacyEmpty) :=
  ⟨(legacy_resolver_behavior.1 { resolved := [(9, some "88")], persistFails := false }
      9 "88" none (some respBuild57) (by decide)).1,
   legacy_resolver_behavior.2.1 legacyEmpty 7 (by decide),
   legacy_resolver_behavior.2.2.1 legacyEmpty respBuild57 42 (some "57") (by decide)
     rfl (by decide),
   legacy_resolver_behavior.2.2.2 0 1 legacyEmpty 7 "1.0" none (some "1.0")
     legacyEmpty (Or.inl rfl) (by decide)⟩

/-! ### Claim C8: persistence failures -/

/-- Counterexample to claim C8 as stated: the `fs.writeFileSync` at
src/main.ts line 835 is not wrapped in try/catch, so when persisting a
fresh legacy resolution fails, the thrown persistence error escapes
`resolve10FileVersion` and rejects the whole check-for-updates request
for app 42. -/
theorem persistence_failure_counterexample :
    (resolve10FileVersion legacyPersistBroken (some respBuild57) 42).1 =
      .error .nonString ∧
    (checkForUpdatesHandler 0 1 legacyPersistBroken 42 "1.0" (some respBuild57)).2.1 =
      .error .nonString := by
  refine ⟨by decide, by decide⟩

theorem processUpdateCheck_result_const (st st2 : ProcState)
    (req : UpdateCheckRequest) (now now2 : Int)
    (fetch : Option SteamAppInfoResponse) (fetchDur fetchDur2 : Int) :
    (processUpdateCheck st req now fetch fetchDur).1 =
      (processUpdateCheck st2 req now2 fetch fetchDur2).1 := by
  cases fetch with
  | none => simp [processUpdateCheck]
  | some resp =>
    cases hd : deriveVersion resp req.appID <;> simp [processUpdateCheck, hd]

theorem getCachedUpdate_fst_writeFails (fs : Fs) (b : Bool) (appID : Nat)
    (now : Int) :
    (getCachedUpdate { stored := fs.stored, writeFails := b } appID now).1 =
      (getCachedUpdate fs appID now).1 := by
  have hread : readUpdateCache { stored := fs.stored, writeFails := b } =
      readUpdateCache fs := rfl
  unfold getCachedUpdate
  rw [hread]
  cases hj : jsGet (readUpdateCache fs) (toString appID) with
  | none => simp [hj]
  | some entry =>
    by_cases hexp : now - entry.timestamp ≥ CACHE_DURATION_MS <;> simp [hj, hexp]

/-- Claim C8 (amended): failures of the TTL update-cache persistence
degrade silently — a corrupt or unreadable store reads as the empty
cache, a failing write is a no-op, an expired-or-missing lookup on a
corrupt store is a plain miss, and the outcome delivered to a queued
request never depends on whether the cache write succeeds; however the
legacy resolver's unguarded persist is an exception: when it fails
while storing a fresh resolution, the error propagates and rejects
that request (see the counterexample). -/
theorem persistence_degradation :
    (∀ b, readUpdateCache { stored := .corrupt, writeFails := b } = []) ∧
    (∀ fs cache, fs.writeFails = true → writeUpdateCache fs cache = fs) ∧
    (∀ fs appID now, fs.stored = .corrupt →
      getCachedUpdate fs appID now = (none, fs)) ∧
    (∀ (st : ProcState) req now fetch fetchDur b,
      (processQueueItem
          { lastApiCallTime := st.lastApiCallTime,
            fs := { stored := st.fs.stored, writeFails := b } }
          req now fetch fetchDur).1 =
        (processQueueItem st req now fetch fetchDur).1) ∧
    (∀ ls resp appID version, legacyHit ls appID = none →
      ls.persistFails = true →
      deriveVersion resp appID = .ok version →
      (resolve10FileVersion ls (some resp) appID).1 = .error .nonString) := by
  refine ⟨?_, ?_, ?_, ?_, ?_⟩
  · intro b; rfl
  · intro fs cache hwf; simp [writeUpdateCache, hwf]
  · intro fs appID now hc
    simp [getCachedUpdate, readUpdateCache, hc, jsGet]
  · intro st req now fetch fetchDur b
    rcases hg : getCachedUpdate st.fs req.appID now with ⟨o, fsA⟩
    rcases hg2 : getCachedUpdate { stored := st.fs.stored, writeFails := b }
        req.appID now with ⟨o2, fsA2⟩
    have ho : o2 = o := by
      have h := getCachedUpdate_fst_writeFails st.fs b req.appID now
      rw [hg, hg2] at h
      simpa using h
    subst ho
    cases o2 with
    | some entry => simp [processQueueItem, hg, hg2]
    | none =>
      rcases hp1 : processUpdateCheck { st with fs := fsA } req now fetch fetchDur
        with ⟨r1, st1, t1, e1⟩
      rcases hp2 : processUpdateCheck
          { lastApiCallTime := st.lastApiCallTime, fs := fsA2 }
          req now fetch fetchDur with ⟨r2, st2, t2, e2⟩
      have hr : r1 = r2 := by
        have h := processUpdateCheck_result_const { st with fs := fsA }
          { lastApiCallTime := st.lastApiCallTime, fs := fsA2 } req now now
          fetch fetchDur fetchDur
        rw [hp1, hp2] at h
        simpa using h
      subst hr
      cases r1 <;> simp [processQueueItem, hg, hg2, hp1, hp2]
  · intro ls resp appID version hhit hpf hderive
    simp [resolve10FileVersion, hhit, hderive, hpf]

theorem persistence_degradation_witness :
    readUpdateCache { stored := .corrupt, writeFails := false } = [] ∧
    writeUpdateCache { stored := .absent, writeFails := true }
        [("42", ⟨some "57", 0⟩)] =
      { stored := .absent, writeFails := true } ∧
    getCachedUpdate { stored := .corrupt, writeFails := false } 42 1000 =
      (none, { stored := .corrupt, writeFails := false }) ∧
    (processQueueItem
        { lastApiCallTime := procStateEmpty.lastApiCallTime,
          fs := { stored := procStateEmpty.fs.stored, writeFails := true } }
        reqSample 1000 none 0).1 =
      (processQueueItem procStateEmpty reqSample 1000 none 0).1 ∧
    (resolve10FileVersion legacyPersistBroken (some respBuild57) 42).1 =
      .error .nonString :=
  ⟨persistence_degradation.1 false,
   persistence_degradation.2.1 { stored := .absent, writeFails := true }
     [("42", ⟨some "57", 0⟩)] rfl,
   persistence_degradation.2.2.1 { stored := .corrupt, writeFails := false }
     42 1000 rfl,
   persistence_degradation.2.2.2.1 procStateEmpty reqSample 1000 none 0 true,
   persistence_degradation.2.2.2.2 legacyPersistBroken respBuild57 42
     (some "57") (by decide) rfl (by decide)⟩

/-! ### Claim C10: rejection text for non-string throws -/

/-- Counterexample to claim C10 as stated: the record for app 7 lacks
a public-branch build identifier even though one is expected (its
`public_only` marker is absent), yet version derivation does NOT
throw — the runtime-erased `buildid!` assertion yields `undefined` —
and the request is resolved (with an undefined version), not rejected
with "Unknown error". -/
theorem missing_buildid_counterexample :
    deriveVersion respNoBuildid 7 = .ok none ∧
    (processQueueItem procStateEmpty { appID := 7, currentVersion := some "1.0" }
        10 (some respNoBuildid) 0).1 = .resolved none true := by
  refine ⟨by decide, by decide⟩

/-- Claim C10 (amended): when the metadata response arrives but holds
no record for the requested id — or the record (with no public-only
marker) is missing its depots, branches table or "public" branch —
version derivation throws a non-string TypeError and the queued
request is rejected with the literal "Unknown error" rather than
"Steam app info not found"; in general every non-string value thrown
while processing a request is surfaced as "Unknown error" and every
thrown string is surfaced verbatim.  (A present public branch whose
`buildid` field is absent does not throw: see the counterexample.) -/
theorem unknown_error_mapping :
    errorToRejection .nonString = "Unknown error" ∧
    (∀ s, errorToRejection (.str s) = s) ∧
    (∀ resp appID, jsGet resp.data appID = none →
      deriveVersion resp appID = .error .nonString) ∧
    (∀ resp appID info, jsGet resp.data appID = some info →
      info.common.public_only = none → info.depots = none →
      deriveVersion resp appID = .error .nonString) ∧
    (∀ resp appID info, jsGet resp.data appID = some info →
      info.common.public_only = none → info.depots = some { branches := none } →
      deriveVersion resp appID = .error .nonString) ∧
    (∀ resp appID info branches, jsGet resp.data appID = some info →
      info.common.public_only = none →
      info.depots = some { branches := some branches } →
      jsGet branches "public" = none →
      deriveVersion resp appID = .error .nonString) ∧
    (∀ (st : ProcState) req now fetchDur resp e,
      (getCachedUpdate st.fs req.appID now).1 = none →
      deriveVersion resp req.appID = .error e →
      (processQueueItem st req now (some resp) fetchDur).1 =
        .rejected (errorToRejection e)) ∧
    ("Unknown error" : String) ≠ "Steam app info not found" := by
  refine ⟨rfl, fun s => rfl, ?_, ?_, ?_, ?_, ?_, by decide⟩
  · intro resp appID h
    simp [deriveVersion, h]
  · intro resp appID info h hpo hdep
    simp [deriveVersion, h, hpo, hdep]
  · intro resp appID info h hpo hdep
    simp [deriveVersion, h, hpo, hdep]
  · intro resp appID info branches h hpo hdep hbr
    simp [deriveVersion, h, hpo, hdep, hbr]
  · intro st req now fetchDur resp e hmiss hderive
    rcases hg : getCachedUpdate st.fs req.appID now with ⟨o, fsA⟩
    rw [hg] at hmiss
    simp only at hmiss
    subst hmiss
    simp [processQueueItem, hg, processUpdateCheck, hderive]

theorem unknown_error_mapping_witness :
    deriveVersion { data := [] } 7 = .error .nonString ∧
    deriveVersion respNoBranches 7 = .error .nonString ∧
    deriveVersion respNoPublicBranch 7 = .error .nonString ∧
    (processQueueItem procStateEmpty { appID := 7, currentVersion := some "1.0" }
        10 (some { data := [] }) 0).1 =
      .rejected (errorToRejection .nonString) :=
  ⟨unknown_error_mapping.2.2.1 { data := [] } 7 (by decide),
   unknown_error_mapping.2.2.2.2.1 respNoBranches 7 infoNoBranches
     (by decide) rfl rfl,
   unknown_error_mapping.2.2.2.2.2.1 respNoPublicBranch 7 infoNoPublicBranch
     [] (by decide) rfl rfl (by decide),
   unknown_error_mapping.2.2.2.2.2.2.1 procStateEmpty
     { appID := 7, currentVersion := some "1.0" } 10 0 { data := [] } .nonString
     (by decide) (by decide)⟩
